import Mathlib

/-!
# Pei_Shell: the command registry and the REPL loop of `Terminal`

A shallow embedding of `src/Pei_Shell.cpp`.

* Strings are Lean strings read as sequences of C++ `char`s.
* The C++ standard library and the operating system are the program's external
  collaborators.  The filesystem is the parameter `OS σ` (one field per
  `std::filesystem` / `fstream` call the program makes, over an arbitrary state
  type `σ`); `std::getline` and `operator>>` on strings are written out below.
* `World σ` is one state of a running `Terminal`: its `current_dir` member, the
  `input` local of `run`, the three console streams, the operating-system state
  and two ghost logs (handlers invoked, operating-system calls issued).
* `cout` and `cerr` hold the characters that reach the console.  `std::cout` has an
  error state: `cout_fail` is its `failbit`, which `std::cout << file.rdbuf()` sets when
  it inserts no character, which nothing in the program clears, and under which every
  later insertion into `std::cout` is dropped.  The program never puts `std::cerr` in
  an error state.
* A C++ exception is the `thrown` outcome carrying `what()`.
-/

namespace PeiShell

/-! ## Console input: `std::cin`, `std::getline`, `operator>>` -/

/-- The state of `std::cin`: unread characters and the two state bits the loop can set. -/
structure IStream where
  buf : List Char
  eofbit : Bool
  failbit : Bool
  deriving DecidableEq

/-- The member `good()`: no state bit is set. -/
def IStream.good (s : IStream) : Bool := !s.eofbit && !s.failbit

/-- The line delimiter of `std::getline`. -/
def newline : Char := Char.ofNat 10

/-- Characters up to the first delimiter, and what follows the delimiter (`none` when the
buffer ends before a delimiter is seen). -/
def read_line : List Char → List Char × Option (List Char)
  | [] => ([], none)
  | c :: cs =>
    if c = newline then ([], some cs)
    else ((c :: (read_line cs).1), (read_line cs).2)

/-- The call `std::getline(std::cin, input)` of line 189.  When the stream is not good
the sentry fails: `failbit` is set and the string keeps its value.  Otherwise the string
is erased and characters are extracted up to and excluding the delimiter; reaching the
end of the input sets `eofbit`, and also `failbit` when no character was extracted. -/
def getline (s : IStream) (str : String) : IStream × String :=
  if s.good then
    match read_line s.buf with
    | (line, some rest) => ({ s with buf := rest }, String.mk line)
    | (line, none) => ({ buf := [], eofbit := true, failbit := line.isEmpty }, String.mk line)
  else ({ s with failbit := true }, str)

/-- The classification `std::isspace` in the classic locale: space, `\t`, `\n`, `\v`,
`\f`, `\r`. -/
def isspace (c : Char) : Bool :=
  c = ' ' || c = Char.ofNat 9 || c = Char.ofNat 10 || c = Char.ofNat 11 ||
    c = Char.ofNat 12 || c = Char.ofNat 13

/-- One extraction `iss >> token` on the unread characters of the string stream: leading
whitespace is skipped; if nothing is left the extraction fails; otherwise the characters
up to the next whitespace (or the end) form the token. -/
def extract (cs : List Char) : Option (List Char × List Char) :=
  match cs.dropWhile isspace with
  | [] => none
  | c :: rest =>
    some ((c :: rest).takeWhile (fun x => !isspace x), (c :: rest).dropWhile (fun x => !isspace x))

/-- The loop `while (iss >> token) args.push_back(token);` of lines 196-197, with a bound
on the number of extractions. -/
def tokenize_loop : Nat → List Char → List String
  | 0, _ => []
  | n + 1, cs =>
    match extract cs with
    | none => []
    | some (token, rest) => String.mk token :: tokenize_loop n rest

/-- Lines 193-197: the argument list built from an input line.  Every extraction consumes
at least one character, so `length + 1` extractions always reach the failing one. -/
def tokenize (input : String) : List String :=
  tokenize_loop (input.data.length + 1) input.data

/-- The argument list in the words of the specification: the maximal runs of
non-whitespace characters of the line, in order.  Splitting at every whitespace
character gives the runs between consecutive whitespace characters; the empty ones are
the places where two whitespace characters (or an end of the line) are adjacent. -/
def maximal_runs (input : String) : List String :=
  ((input.data.splitOnP isspace).filter (fun run => run ≠ [])).map String.mk

/-! ## The operating system -/

/-- One element produced by `fs::directory_iterator`: `entry.path().filename().string()`
and `entry.is_directory()`. -/
structure DirEntry where
  filename : String
  is_directory : Bool
  deriving DecidableEq

/-- The operating-system calls the program makes, as functions on an arbitrary state.
A call that can throw returns the new state together with `some what` when it throws. -/
structure OS (σ : Type) where
  /-- The call `fs::current_path()`. -/
  current_path : σ → Except String String
  /-- The call `fs::current_path(p)`. -/
  set_current_path : σ → String → σ × Option String
  /-- The range `fs::directory_iterator(p)`, taken as a whole: it throws before the first
  entry or delivers every entry. -/
  directory_iterator : σ → String → Except String (List DirEntry)
  /-- The call `fs::create_directories(p)`. -/
  create_directories : σ → String → σ × Option String
  /-- The call `fs::remove(p)`. -/
  remove : σ → String → σ × Option String
  /-- The call `fs::remove_all(p)`. -/
  remove_all : σ → String → σ × Option String
  /-- The call `fs::copy(from, to, recursive | overwrite_existing)`. -/
  copy : σ → String → String → σ × Option String
  /-- The call `fs::rename(from, to)`. -/
  rename : σ → String → String → σ × Option String
  /-- The constructor `std::ofstream(p)`: the new state and `is_open()`. -/
  ofstream_open : σ → String → σ × Bool
  /-- One insertion into an open `std::ofstream` on `p`. -/
  ofstream_write : σ → String → String → σ
  /-- The whole content read through `std::ifstream(p)`, `none` when it cannot be opened. -/
  ifstream_read : σ → String → Option String
  /-- The call `system(cmd)`. -/
  system : σ → String → σ

/-- The ghost log of operating-system calls. -/
inductive Call where
  | current_path
  | set_current_path (p : String)
  | directory_iterator (p : String)
  | create_directories (p : String)
  | remove (p : String)
  | remove_all (p : String)
  | copy (src dst : String)
  | rename (src dst : String)
  | ofstream_open (p : String)
  | ofstream_write (p : String) (data : String)
  | ifstream_read (p : String)
  | system (cmd : String)
  deriving DecidableEq

/-! ## The state of a running terminal -/

/-- One state of the program. -/
structure World (σ : Type) where
  /-- The operating-system state. -/
  fs : σ
  /-- The member `Terminal::current_dir`. -/
  current_dir : String
  /-- The local `input` of `Terminal::run`, declared outside the loop. -/
  input : String
  cin : IStream
  /-- The characters written to the console through `std::cout`. -/
  cout : String
  /-- The `failbit` of `std::cout`. -/
  cout_fail : Bool
  /-- The characters written to the console through `std::cerr`. -/
  cerr : String
  /-- Ghost: every handler called through the registry, with its argument list. -/
  invoked : List (String × List String)
  /-- Ghost: every operating-system call issued. -/
  calls : List Call
  deriving DecidableEq

/-- How a handler call ends: it returns, or it throws a `std::exception`. -/
inductive Outcome (σ : Type) where
  | returned (w : World σ)
  | thrown (what : String) (w : World σ)
  deriving DecidableEq

/-- The state in which a handler call ended. -/
def Outcome.world {σ : Type} : Outcome σ → World σ
  | .returned w => w
  | .thrown _ w => w

/-- Record an operating-system call and the state it leaves. -/
def World.call {σ : Type} (w : World σ) (c : Call) (fs : σ) : World σ :=
  { w with fs := fs, calls := w.calls ++ [c] }

/-- Insert a string or a character into `std::cout`: nothing happens once the stream has
failed. -/
def World.put {σ : Type} (w : World σ) (s : String) : World σ :=
  if w.cout_fail = true then w else { w with cout := w.cout ++ s }

/-- The insertion `std::cout << file.rdbuf()` of line 145, given what can be read from
the file (`none` when it could not be opened): nothing happens once the stream has
failed; otherwise the characters are copied, and if there is none to copy the stream
fails. -/
def World.put_rdbuf {σ : Type} (w : World σ) (content : Option String) : World σ :=
  if w.cout_fail = true then w
  else
    match content with
    | some c => if c = "" then { w with cout_fail := true } else { w with cout := w.cout ++ c }
    | none => { w with cout_fail := true }

/-- Insert into `std::cerr`. -/
def World.err {σ : Type} (w : World σ) (s : String) : World σ :=
  { w with cerr := w.cerr ++ s }

/-- Concatenation of a list of strings. -/
def concat : List String → String
  | [] => ""
  | s :: rest => s ++ concat rest

/-! ## The handlers (lines 82-178) -/

/-- The expression `filename[0]`: the first character, the terminating null character
for an empty string. -/
def first_char (s : String) : Char := s.data.headD (Char.ofNat 0)

/-- The body of the loop of `list_directory` (lines 85-88). -/
def list_entry {σ : Type} (show_hidden : Bool) (w : World σ) (entry : DirEntry) : World σ :=
  if !show_hidden && first_char entry.filename = '.' then w
  else w.put ((if entry.is_directory then "[DIR] " else "[FILE] ") ++ entry.filename ++ "\n")

/-- Lines 82-90. -/
def list_directory {σ : Type} (os : OS σ) (w : World σ) (args : List String) : Outcome σ :=
  let show_hidden : Bool := decide ("-a" ∈ args)
  let w1 := w.call (.directory_iterator w.current_dir) w.fs
  match os.directory_iterator w.fs w.current_dir with
  | .error what => .thrown what w1
  | .ok entries => .returned (entries.foldl (list_entry show_hidden) w1)

/-- Lines 92-101.  Both calls are inside the `try`; `catch (...)` reports and returns. -/
def change_directory {σ : Type} (os : OS σ) (w : World σ) (args : List String) : Outcome σ :=
  match args with
  | [] => .returned w
  | p :: _ =>
    let w1 := w.call (.set_current_path p) (os.set_current_path w.fs p).1
    match (os.set_current_path w.fs p).2 with
    | some _ => .returned (w1.err "Error: Invalid directory\n")
    | none =>
      let w2 := w1.call .current_path w1.fs
      match os.current_path w1.fs with
      | .ok d => .returned { w2 with current_dir := d }
      | .error _ => .returned (w2.err "Error: Invalid directory\n")

/-- The stream inserter of `fs::path`: the path between double quotes, with every double
quote and backslash inside it escaped by a backslash. -/
def quoted (s : String) : String :=
  String.mk ([Char.ofNat 34] ++
    (s.data.map (fun c =>
      if c = Char.ofNat 34 ∨ c = Char.ofNat 92 then [Char.ofNat 92, c] else [c])).flatten ++
    [Char.ofNat 34])

/-- Lines 30-32, the handler of `pwd`. -/
def print_working_directory {σ : Type} (os : OS σ) (w : World σ) (_args : List String) :
    Outcome σ :=
  let w1 := w.call .current_path w.fs
  match os.current_path w.fs with
  | .ok d => .returned (w1.put (quoted d ++ "\n"))
  | .error what => .thrown what w1

/-- Lines 103-107. -/
def make_directory {σ : Type} (os : OS σ) (w : World σ) (args : List String) : Outcome σ :=
  match args with
  | [] => .returned w
  | p :: _ =>
    let w1 := w.call (.create_directories p) (os.create_directories w.fs p).1
    match (os.create_directories w.fs p).2 with
    | some what => .thrown what w1
    | none => .returned w1

/-- The loop of `remove_target` (lines 113-120); a call that throws ends it. -/
def remove_loop {σ : Type} (os : OS σ) (recursive : Bool) : List String → World σ → Outcome σ
  | [], w => .returned w
  | path :: rest, w =>
    if path = "-r" then remove_loop os recursive rest w
    else if recursive then
      match (os.remove_all w.fs path).2 with
      | some what => .thrown what (w.call (.remove_all path) (os.remove_all w.fs path).1)
      | none => remove_loop os recursive rest (w.call (.remove_all path) (os.remove_all w.fs path).1)
    else
      match (os.remove w.fs path).2 with
      | some what => .thrown what (w.call (.remove path) (os.remove w.fs path).1)
      | none => remove_loop os recursive rest (w.call (.remove path) (os.remove w.fs path).1)

/-- Lines 109-121. -/
def remove_target {σ : Type} (os : OS σ) (w : World σ) (args : List String) : Outcome σ :=
  match args with
  | [] => .returned w
  | _ :: _ => remove_loop os (decide ("-r" ∈ args)) args w

/-- Lines 123-127. -/
def copy_file {σ : Type} (os : OS σ) (w : World σ) (args : List String) : Outcome σ :=
  match args with
  | src :: dst :: _ =>
    let w1 := w.call (.copy src dst) (os.copy w.fs src dst).1
    match (os.copy w.fs src dst).2 with
    | some what => .thrown what w1
    | none => .returned w1
  | _ => .returned w

/-- Lines 129-133. -/
def move_file {σ : Type} (os : OS σ) (w : World σ) (args : List String) : Outcome σ :=
  match args with
  | src :: dst :: _ =>
    let w1 := w.call (.rename src dst) (os.rename w.fs src dst).1
    match (os.rename w.fs src dst).2 with
    | some what => .thrown what w1
    | none => .returned w1
  | _ => .returned w

/-- Lines 135-139: the file is opened for writing and closed at once. -/
def create_file {σ : Type} (os : OS σ) (w : World σ) (args : List String) : Outcome σ :=
  match args with
  | [] => .returned w
  | p :: _ => .returned (w.call (.ofstream_open p) (os.ofstream_open w.fs p).1)

/-- Lines 141-146: the content of the file, then a newline.  For a file that is empty or
cannot be opened the first insertion fails `std::cout`, and the newline is dropped. -/
def display_file {σ : Type} (os : OS σ) (w : World σ) (args : List String) : Outcome σ :=
  match args with
  | [] => .returned w
  | p :: _ =>
    .returned (((w.call (.ifstream_read p) w.fs).put_rdbuf (os.ifstream_read w.fs p)).put "\n")

/-- The loop of lines 154-155 on an open stream: each token, then a space. -/
def echo_to_file {σ : Type} (os : OS σ) (file : String) : List String → World σ → World σ
  | [], w => w
  | token :: rest, w =>
    let w1 := w.call (.ofstream_write file token) (os.ofstream_write w.fs file token)
    let w2 := w1.call (.ofstream_write file " ") (os.ofstream_write w1.fs file " ")
    echo_to_file os file rest w2

/-- The loop of lines 157-158: each argument, then a space. -/
def echo_to_console {σ : Type} : List String → World σ → World σ
  | [], w => w
  | arg :: rest, w => echo_to_console rest ((w.put arg).put " ")

/-- Lines 148-161.  `std::find` leaves `it` at the first `>` (the suffix of the
arguments that starts there, empty for `end()`); the branch is taken when that suffix
has a second element, the file name; the tokens written are those before the `>`.
Insertions into a stream that failed to open are dropped. -/
def echo_content {σ : Type} (os : OS σ) (w : World σ) (args : List String) : Outcome σ :=
  match args with
  | [] => .returned w
  | _ :: _ =>
    match args.dropWhile (fun a => a ≠ ">") with
    | _ :: file :: _ =>
      let w1 := w.call (.ofstream_open file) (os.ofstream_open w.fs file).1
      if (os.ofstream_open w.fs file).2 then
        .returned (echo_to_file os file (args.takeWhile (fun a => a ≠ ">")) w1)
      else .returned w1
    | _ => .returned ((echo_to_console args w).put "\n")

/-- The text printed by `show_help` (lines 164-177). -/
def help_text : String :=
  "Supported commands:\n" ++
  "ls [-a]        List directory contents\n" ++
  "cd <path>      Change directory\n" ++
  "pwd            Print working directory\n" ++
  "mkdir <dir>    Create directory\n" ++
  "rm [-r] <path> Remove file/directory\n" ++
  "cp <src> <dst> Copy file/directory\n" ++
  "mv <src> <dst> Move/rename file\n" ++
  "touch <file>   Create empty file\n" ++
  "cat <file>     Display file content\n" ++
  "echo [> file]  Print/write text\n" ++
  "clear          Clear screen\n" ++
  "help           Show this help\n" ++
  "exit           Quit terminal\n"

/-- Lines 163-178. -/
def show_help {σ : Type} (_os : OS σ) (w : World σ) (_args : List String) : Outcome σ :=
  .returned (w.put help_text)

/-- Lines 70-72, the handler of `clear`. -/
def clear_screen {σ : Type} (os : OS σ) (w : World σ) (_args : List String) : Outcome σ :=
  .returned (w.call (.system "cls||clear") (os.system w.fs "cls||clear"))

/-! ## The registry (lines 17-80) and the loop (lines 181-220) -/

/-- The type of the values of the map `commands`. -/
abbrev Handler (σ : Type) : Type := OS σ → World σ → List String → Outcome σ

/-- The map `commands` built by `init_commands`. -/
def commands (σ : Type) : List (String × Handler σ) :=
  [ ("ls", list_directory),
    ("cd", change_directory),
    ("pwd", print_working_directory),
    ("mkdir", make_directory),
    ("rm", remove_target),
    ("cp", copy_file),
    ("mv", move_file),
    ("touch", create_file),
    ("cat", display_file),
    ("echo", echo_content),
    ("clear", clear_screen),
    ("help", show_help) ]

/-- The keys of `commands`. -/
def registered : List String :=
  ["ls", "cd", "pwd", "mkdir", "rm", "cp", "mv", "touch", "cat", "echo", "clear", "help"]

/-- The lookup `commands.find(name)`. -/
def find_command (σ : Type) (name : String) : Option (Handler σ) :=
  (commands σ).lookup name

/-- The constructor `Terminal()` (lines 181-183) in a fresh process. -/
def Terminal {σ : Type} (os : OS σ) (fs : σ) (cin : List Char) : Except String (World σ) :=
  match os.current_path fs with
  | .ok d =>
    .ok { fs := fs, current_dir := d, input := "",
          cin := { buf := cin, eofbit := false, failbit := false },
          cout := "", cout_fail := false, cerr := "", invoked := [],
          calls := [.current_path] }
  | .error what => .error what

/-- Whether the loop of `run` is still going. -/
inductive Status where
  | running
  | terminated
  deriving DecidableEq

/-- Line 188. -/
def prompt {σ : Type} (w : World σ) : World σ :=
  w.put ("\x1b[32m" ++ w.current_dir ++ " $ \x1b[0m")

/-- Line 189. -/
def read_input {σ : Type} (w : World σ) : World σ :=
  { w with cin := (getline w.cin w.input).1, input := (getline w.cin w.input).2 }

/-- Lines 209-211: a handler that returned falls through; one that threw is caught and
reported. -/
def recover {σ : Type} : Outcome σ → World σ
  | .returned w1 => w1
  | .thrown what w1 => w1.err ("Error: " ++ what ++ "\n")

/-- Ghost: note that the handler registered under `name` is being called. -/
def World.invoke {σ : Type} (w : World σ) (name : String) (cmd_args : List String) : World σ :=
  { w with invoked := w.invoked ++ [(name, cmd_args)] }

/-- Lines 202-211: the `try` block on a non-empty argument list `name :: cmd_args`. -/
def dispatch {σ : Type} (os : OS σ) (w : World σ) (name : String) (cmd_args : List String) :
    World σ :=
  match find_command σ name with
  | some handler => recover (handler os (w.invoke name cmd_args) cmd_args)
  | none => w.err ("Command not found: " ++ name ++ "\n")

/-- Lines 190-211: the rest of the loop body once `input` holds the line. -/
def process_line {σ : Type} (os : OS σ) (w : World σ) : Status × World σ :=
  if w.input = "exit" then (.terminated, w)
  else
    match tokenize w.input with
    | [] => (.running, w)
    | name :: cmd_args => (.running, dispatch os w name cmd_args)

/-- One pass through the body of `while (true)` (lines 188-211). -/
def iteration {σ : Type} (os : OS σ) (w : World σ) : Status × World σ :=
  process_line os (read_input (prompt w))

/-- The loop of `run`, cut off after `n` passes. -/
def run_loop {σ : Type} (os : OS σ) : Nat → World σ → Status × World σ
  | 0, w => (.running, w)
  | n + 1, w =>
    match iteration os w with
    | (.terminated, w1) => (.terminated, w1)
    | (.running, w1) => run_loop os n w1

/-- The function `main` (lines 216-220) cut off after `n` passes of the loop: the exit
status once `run` has returned, `none` while it has not.  An exception leaving the
constructor is not caught and ends the process abnormally. -/
def main {σ : Type} (os : OS σ) (n : Nat) (fs : σ) (cin : List Char) : Option (Except String Nat) :=
  match Terminal os fs cin with
  | .error what => some (.error what)
  | .ok term =>
    match run_loop os n term with
    | (.terminated, _) => some (.ok 0)
    | (.running, _) => none

/-! ## Assumptions on the operating system used by some theorems -/

/-- The line `ls` prints for one entry. -/
def listing_line (entry : DirEntry) : String :=
  (if entry.is_directory then "[DIR] " else "[FILE] ") ++ entry.filename ++ "\n"

/-- The name starts with a dot. -/
def starts_with_dot (name : String) : Bool := name.data.head? = some '.'

/-- The entries `ls` shows: all of them with `-a` among the arguments, otherwise those
whose name does not start with a dot. -/
def shown (args : List String) (entries : List DirEntry) : List DirEntry :=
  entries.filter (fun e => decide ("-a" ∈ args) || !starts_with_dot e.filename)

/-- Each token followed by one space. -/
def spaced (tokens : List String) : String :=
  concat (tokens.map (fun t => t ++ " "))

/-! ## A small filesystem

A concrete operating system to run the program on: files and directories named by
absolute path strings, and the working directory of the process, which follows a
directory that is renamed and is lost when the directory is removed.  Path strings are
taken as written (no `.` or `..`, no symbolic links). -/

/-- A file or a directory. -/
structure Node where
  path : String
  is_dir : Bool
  content : String
  deriving DecidableEq

/-- The filesystem and the working directory of the process. -/
structure Disk where
  nodes : List Node
  cwd : Option String
  deriving DecidableEq

namespace Disk

/-- The directory path followed by the separator. -/
def slash (dir : String) : String := if dir = "/" then "/" else dir ++ "/"

/-- An absolute path is itself; a relative one is taken from the working directory. -/
def resolve (d : Disk) (p : String) : Option String :=
  if p.data.head? = some '/' then some p
  else match d.cwd with
    | some c => some (slash c ++ p)
    | none => none

/-- The node at an absolute path. -/
def node (d : Disk) (q : String) : Option Node := d.nodes.find? (fun n => n.path = q)

/-- The path is an existing directory; the root always is. -/
def is_dir_at (d : Disk) (q : String) : Bool :=
  q = "/" || (match d.node q with | some n => n.is_dir | none => false)

/-- The path `p` lies strictly below the directory `q`. -/
def below (q p : String) : Bool := (slash q).data.isPrefixOf p.data && p != q

/-- The path `p` is `q` or lies below it. -/
def within (q p : String) : Bool := p = q || below q p

/-- The path `p` with its leading `a` replaced by `b` when it is within `a`. -/
def reroot (a b p : String) : String :=
  if p = a then b
  else if below a p then slash b ++ String.mk (p.data.drop (slash a).data.length)
  else p

/-- The directory containing the path. -/
def parent (q : String) : String :=
  match ((q.data.reverse.dropWhile (fun c => c ≠ '/')).drop 1).reverse with
  | [] => "/"
  | cs => String.mk cs

/-- The path and the directories above it, outermost first. -/
def chain : List Char → List Char → List String
  | seen, [] => if seen = [] then [] else [String.mk seen.reverse]
  | seen, c :: cs =>
    if c = '/' ∧ seen ≠ [] ∧ seen ≠ ['/'] then String.mk seen.reverse :: chain (c :: seen) cs
    else chain (c :: seen) cs

def current_path (d : Disk) : Except String String :=
  match d.cwd with
  | some c => .ok c
  | none => .error "filesystem error: cannot get current path: No such file or directory"

def set_current_path (d : Disk) (p : String) : Disk × Option String :=
  match d.resolve p with
  | some q =>
    if d.is_dir_at q then ({ d with cwd := some q }, none)
    else (d, some "filesystem error: cannot set current path: No such file or directory")
  | none => (d, some "filesystem error: cannot set current path: No such file or directory")

def directory_iterator (d : Disk) (p : String) : Except String (List DirEntry) :=
  match d.resolve p with
  | some q =>
    if d.is_dir_at q then
      let name := fun (n : Node) => n.path.data.drop (slash q).data.length
      let children := d.nodes.filter (fun n => below q n.path && !(name n).contains '/')
      .ok (children.map (fun n => { filename := String.mk (name n), is_directory := n.is_dir }))
    else .error "filesystem error: directory iterator cannot open directory: No such file or directory"
  | none => .error "filesystem error: directory iterator cannot open directory: No such file or directory"

def create_directories (d : Disk) (p : String) : Disk × Option String :=
  match d.resolve p with
  | some q =>
    if (chain [] q.data).any (fun a => match d.node a with | some n => !n.is_dir | none => false) then
      (d, some "filesystem error: cannot create directories: Not a directory")
    else
      let missing := (chain [] q.data).filter (fun a => (d.node a).isNone)
      let made : List Node := missing.map (fun a => { path := a, is_dir := true, content := "" })
      ({ d with nodes := d.nodes ++ made }, none)
  | none => (d, some "filesystem error: cannot create directories: No such file or directory")

/-- The working directory after everything within `q` is gone. -/
def cwd_without (d : Disk) (q : String) : Option String :=
  match d.cwd with
  | some c => if within q c then none else some c
  | none => none

def remove (d : Disk) (p : String) : Disk × Option String :=
  match d.resolve p with
  | some q =>
    match d.node q with
    | none => (d, none)
    | some n =>
      if n.is_dir && d.nodes.any (fun m => below q m.path) then
        (d, some "filesystem error: cannot remove: Directory not empty")
      else ({ nodes := d.nodes.filter (fun m => m.path ≠ q), cwd := d.cwd_without q }, none)
  | none => (d, none)

def remove_all (d : Disk) (p : String) : Disk × Option String :=
  match d.resolve p with
  | some q => ({ nodes := d.nodes.filter (fun m => !within q m.path), cwd := d.cwd_without q }, none)
  | none => (d, none)

def copy (d : Disk) (a b : String) : Disk × Option String :=
  match d.resolve a, d.resolve b with
  | some src, some dst =>
    match d.node src with
    | none => (d, some "filesystem error: cannot copy: No such file or directory")
    | some _ =>
      let copies : List Node :=
        (d.nodes.filter (fun n => within src n.path)).map
          (fun n => { n with path := reroot src dst n.path })
      let kept := d.nodes.filter (fun m => !(copies.any (fun n => n.path = m.path)))
      ({ d with nodes := kept ++ copies }, none)
  | _, _ => (d, some "filesystem error: cannot copy: No such file or directory")

def rename (d : Disk) (a b : String) : Disk × Option String :=
  match d.resolve a, d.resolve b with
  | some src, some dst =>
    match d.node src with
    | none => (d, some "filesystem error: cannot rename: No such file or directory")
    | some _ =>
      let kept := d.nodes.filter (fun m => within src m.path || !within dst m.path)
      let moved : List Node := kept.map (fun n => { n with path := reroot src dst n.path })
      ({ nodes := moved, cwd := d.cwd.map (reroot src dst) }, none)
  | _, _ => (d, some "filesystem error: cannot rename: No such file or directory")

def ofstream_open (d : Disk) (p : String) : Disk × Bool :=
  match d.resolve p with
  | some q =>
    if d.is_dir_at q || !d.is_dir_at (parent q) then (d, false)
    else
      let fresh : Node := { path := q, is_dir := false, content := "" }
      ({ d with nodes := fresh :: d.nodes.filter (fun m => m.path ≠ q) }, true)
  | none => (d, false)

def ofstream_write (d : Disk) (p data : String) : Disk :=
  match d.resolve p with
  | some q =>
    let grow := fun (n : Node) =>
      if n.path = q ∧ n.is_dir = false then { n with content := n.content ++ data } else n
    { d with nodes := d.nodes.map grow }
  | none => d

def ifstream_read (d : Disk) (p : String) : Option String :=
  match d.resolve p with
  | some q =>
    match d.node q with
    | some n => if n.is_dir then none else some n.content
    | none => none
  | none => none

end Disk

/-- The small filesystem as an operating system. -/
def disk : OS Disk where
  current_path := Disk.current_path
  set_current_path := Disk.set_current_path
  directory_iterator := Disk.directory_iterator
  create_directories := Disk.create_directories
  remove := Disk.remove
  remove_all := Disk.remove_all
  copy := Disk.copy
  rename := Disk.rename
  ofstream_open := Disk.ofstream_open
  ofstream_write := Disk.ofstream_write
  ifstream_read := Disk.ifstream_read
  system := fun d _ => d

/-- A disk with a directory `/home` holding a hidden file, a file and a non-empty
directory, and an empty directory `/tmp`; the process is in `/home`. -/
def sample_disk : Disk :=
  { nodes := [ { path := "/home", is_dir := true, content := "" },
               { path := "/home/.profile", is_dir := false, content := "x" },
               { path := "/home/notes.txt", is_dir := false, content := "hello" },
               { path := "/home/src", is_dir := true, content := "" },
               { path := "/home/src/a.c", is_dir := false, content := "int" },
               { path := "/tmp", is_dir := true, content := "" } ],
    cwd := some "/home" }

/-- A terminal on the sample disk, in sync with it, about to read the given console input. -/
def sample (cin : String) : World Disk :=
  { fs := sample_disk, current_dir := "/home", input := "",
    cin := { buf := cin.data, eofbit := false, failbit := false },
    cout := "", cout_fail := false, cerr := "", invoked := [], calls := [.current_path] }

/-! ## The tokenizer -/

/-- The non-empty pieces of a split. -/
theorem runs_cons_sep {p : Char → Bool} (x : Char) (xs : List Char) (h : p x = true) :
    ((x :: xs).splitOnP p).filter (fun run => run ≠ []) =
      (xs.splitOnP p).filter (fun run => run ≠ []) := by
  rw [List.splitOnP_cons]
  simp [h]

theorem splitOnP_head_tail (p : Char → Bool) (xs : List Char) :
    xs.splitOnP p = xs.takeWhile (fun c => !p c) ::
      (match xs.dropWhile (fun c => !p c) with
       | [] => []
       | _ :: r => r.splitOnP p) := by
  induction xs with
  | nil => simp [List.splitOnP_nil]
  | cons x xs ih =>
    rw [List.splitOnP_cons]
    by_cases h : p x = true
    · simp [h]
    · simp only [h, Bool.false_eq_true, if_false]
      rw [ih]
      simp [List.modifyHead, h, List.takeWhile, List.dropWhile]

theorem runs_skip (p : Char → Bool) (xs : List Char) :
    (xs.splitOnP p).filter (fun run => run ≠ []) =
      ((xs.dropWhile p).splitOnP p).filter (fun run => run ≠ []) := by
  induction xs with
  | nil => simp
  | cons x xs ih =>
    by_cases h : p x = true
    · rw [runs_cons_sep x xs h, ih]; simp [List.dropWhile, h]
    · simp [List.dropWhile, h]

theorem runs_token (p : Char → Bool) (c : Char) (rest : List Char) (h : p c = false) :
    ((c :: rest).splitOnP p).filter (fun run => run ≠ []) =
      (c :: rest).takeWhile (fun x => !p x) ::
        (((c :: rest).dropWhile (fun x => !p x)).splitOnP p).filter (fun run => run ≠ []) := by
  rw [splitOnP_head_tail p (c :: rest)]
  have hne : (c :: rest).takeWhile (fun x => !p x) ≠ [] := by simp [List.takeWhile, h]
  rw [List.filter_cons_of_pos (by simpa using hne)]
  congr 1
  cases hd : (c :: rest).dropWhile (fun x => !p x) with
  | nil => simp [List.splitOnP_nil]
  | cons s r =>
    have hs : p s = true := by
      have := List.head_dropWhile_not (fun x => !p x) (c :: rest) (by rw [hd]; simp)
      simpa [hd] using this
    simp only []
    rw [runs_cons_sep s r hs]

theorem tokenize_loop_eq_runs (n : Nat) : ∀ cs : List Char, cs.length < n →
    tokenize_loop n cs = ((cs.splitOnP isspace).filter (fun run => run ≠ [])).map String.mk := by
  induction n with
  | zero => intro cs h; omega
  | succ n ih =>
    intro cs hlen
    rw [runs_skip isspace cs]
    unfold tokenize_loop extract
    have hle : (cs.dropWhile isspace).length ≤ cs.length :=
      (List.dropWhile_sublist isspace).length_le
    cases hd : cs.dropWhile isspace with
    | nil => simp [List.splitOnP_nil]
    | cons c rest =>
      have hc : isspace c = false := by
        have := List.head_dropWhile_not isspace cs (by rw [hd]; simp)
        simpa [hd] using this
      rw [runs_token isspace c rest hc]
      simp only [List.map_cons]
      congr 1
      apply ih
      have h1 : ((c :: rest).dropWhile (fun x => !isspace x)).length ≤ rest.length := by
        simp only [List.dropWhile, hc, Bool.not_false]
        exact (List.dropWhile_sublist _).length_le
      rw [hd] at hle
      simp at hle
      omega

theorem tokenize_eq_maximal_runs (input : String) : tokenize input = maximal_runs input :=
  tokenize_loop_eq_runs _ _ (Nat.lt_succ_self _)

theorem tokenize_loop_tokens (n : Nat) : ∀ (cs : List Char) (t : String), t ∈ tokenize_loop n cs →
    t.data ≠ [] ∧ ∀ c ∈ t.data, isspace c = false := by
  induction n with
  | zero => intro cs t h; simp [tokenize_loop] at h
  | succ n ih =>
    intro cs t h
    unfold tokenize_loop extract at h
    cases hd : cs.dropWhile isspace with
    | nil => simp [hd] at h
    | cons c rest =>
      have hc : isspace c = false := by
        have := List.head_dropWhile_not isspace cs (by rw [hd]; simp)
        simpa [hd] using this
      simp only [hd, List.mem_cons] at h
      rcases h with h | h
      · subst h
        refine ⟨by simp [List.takeWhile, hc], ?_⟩
        intro x hx
        have := List.mem_takeWhile_imp hx
        simpa using this
      · exact ih _ t h

/-! ## The registry -/

theorem lookup_absent {β : Type} (k : String) :
    ∀ l : List (String × β), k ∉ l.map Prod.fst → l.lookup k = none := by
  intro l
  induction l with
  | nil => intro _; rfl
  | cons p l ih =>
    intro h
    obtain ⟨a, b⟩ := p
    simp only [List.map_cons, List.mem_cons, not_or] at h
    have hb : (k == a) = false := by simpa using h.1
    simp only [List.lookup, hb]
    exact ih h.2

theorem find_command_unregistered (σ : Type) (name : String) (h : name ∉ registered) :
    find_command σ name = none :=
  lookup_absent name (commands σ) h

theorem lookup_mem {β : Type} (k : String) (v : β) :
    ∀ l : List (String × β), l.lookup k = some v → (k, v) ∈ l := by
  intro l
  induction l with
  | nil => intro h; simp [List.lookup] at h
  | cons p l ih =>
    intro h
    obtain ⟨a, b⟩ := p
    by_cases hk : k = a
    · subst hk
      simp [List.lookup] at h
      simp [h]
    · have hb : (k == a) = false := by simpa using hk
      simp only [List.lookup, hb] at h
      exact List.mem_cons_of_mem _ (ih h)

theorem find_command_mem (σ : Type) (name : String) (handler : Handler σ)
    (h : find_command σ name = some handler) : (name, handler) ∈ commands σ :=
  lookup_mem name handler _ h

theorem find_command_registered (σ : Type) (name : String) (handler : Handler σ)
    (h : find_command σ name = some handler) : name ∈ registered := by
  by_contra hn
  rw [find_command_unregistered σ name hn] at h
  cases h

theorem exit_unregistered : "exit" ∉ registered := by decide

theorem tokenize_exit : tokenize "exit" = ["exit"] := by decide

/-! ## The loop body -/

theorem put_frame {σ : Type} (w : World σ) (s : String) :
    (w.put s).fs = w.fs ∧ (w.put s).current_dir = w.current_dir ∧
    (w.put s).input = w.input ∧ (w.put s).cin = w.cin ∧ (w.put s).cerr = w.cerr ∧
    (w.put s).invoked = w.invoked ∧ (w.put s).calls = w.calls ∧
    (w.put s).cout_fail = w.cout_fail := by
  unfold World.put
  by_cases h : w.cout_fail = true
  · rw [if_pos h]
    exact ⟨rfl, rfl, rfl, rfl, rfl, rfl, rfl, rfl⟩
  · rw [if_neg h]
    exact ⟨rfl, rfl, rfl, rfl, rfl, rfl, rfl, rfl⟩

theorem put_input {σ : Type} (w : World σ) (s : String) : (w.put s).input = w.input :=
  (put_frame w s).2.2.1

theorem put_cin {σ : Type} (w : World σ) (s : String) : (w.put s).cin = w.cin :=
  (put_frame w s).2.2.2.1

theorem put_cerr {σ : Type} (w : World σ) (s : String) : (w.put s).cerr = w.cerr :=
  (put_frame w s).2.2.2.2.1

theorem put_invoked {σ : Type} (w : World σ) (s : String) : (w.put s).invoked = w.invoked :=
  (put_frame w s).2.2.2.2.2.1

theorem read_prompt_frame {σ : Type} (w : World σ) :
    (read_input (prompt w)).fs = w.fs ∧ (read_input (prompt w)).current_dir = w.current_dir ∧
    (read_input (prompt w)).cerr = w.cerr ∧ (read_input (prompt w)).invoked = w.invoked ∧
    (read_input (prompt w)).calls = w.calls ∧
    (read_input (prompt w)).cin = (getline w.cin w.input).1 ∧
    (read_input (prompt w)).input = (getline w.cin w.input).2 := by
  obtain ⟨h1, h2, h3, h4, h5, h6, h7, _⟩ := put_frame w ("\x1b[32m" ++ w.current_dir ++ " $ \x1b[0m")
  unfold read_input prompt
  simp only [h1, h2, h3, h4, h5, h6, h7]
  exact ⟨trivial, trivial, trivial, trivial, trivial, trivial, trivial⟩

theorem read_input_input {σ : Type} (w : World σ) :
    (read_input (prompt w)).input = (getline w.cin w.input).2 :=
  (read_prompt_frame w).2.2.2.2.2.2

theorem iteration_exit {σ : Type} (os : OS σ) (w : World σ)
    (h : (getline w.cin w.input).2 = "exit") :
    iteration os w = (.terminated, read_input (prompt w)) := by
  unfold iteration process_line
  rw [read_input_input, if_pos h]

theorem iteration_empty {σ : Type} (os : OS σ) (w : World σ)
    (hexit : (getline w.cin w.input).2 ≠ "exit")
    (h : tokenize (getline w.cin w.input).2 = []) :
    iteration os w = (.running, read_input (prompt w)) := by
  unfold iteration process_line
  rw [read_input_input, if_neg hexit, h]

theorem iteration_dispatch {σ : Type} (os : OS σ) (w : World σ) (name : String)
    (cmd_args : List String) (hexit : (getline w.cin w.input).2 ≠ "exit")
    (h : tokenize (getline w.cin w.input).2 = name :: cmd_args) :
    iteration os w = (.running, dispatch os (read_input (prompt w)) name cmd_args) := by
  unfold iteration process_line
  rw [read_input_input, if_neg hexit, h]

theorem dispatch_unregistered {σ : Type} (os : OS σ) (w : World σ) (name : String)
    (cmd_args : List String) (h : name ∉ registered) :
    dispatch os w name cmd_args = w.err ("Command not found: " ++ name ++ "\n") := by
  unfold dispatch
  rw [find_command_unregistered σ name h]

theorem iteration_running {σ : Type} (os : OS σ) (w : World σ)
    (hexit : (getline w.cin w.input).2 ≠ "exit") : (iteration os w).1 = .running := by
  unfold iteration process_line
  rw [read_input_input, if_neg hexit]
  split <;> rfl

/-! ## The loops inside the handlers -/

theorem put_put {σ : Type} (w : World σ) (a b : String) : (w.put a).put b = w.put (a ++ b) := by
  unfold World.put
  by_cases h : w.cout_fail = true
  · simp [h]
  · simp [h, String.append_assoc]

theorem put_empty {σ : Type} (w : World σ) : w.put "" = w := by
  unfold World.put
  by_cases h : w.cout_fail = true
  · rw [if_pos h]
  · rw [if_neg h, String.append_empty]

theorem put_good {σ : Type} (w : World σ) (s : String) (h : w.cout_fail = false) :
    w.put s = { w with cout := w.cout ++ s } := by
  simp [World.put, h]

theorem put_failed {σ : Type} (w : World σ) (s : String) (h : w.cout_fail = true) :
    w.put s = w := by
  simp [World.put, h]

theorem put_rdbuf_frame {σ : Type} (w : World σ) (content : Option String) :
    (w.put_rdbuf content).fs = w.fs ∧ (w.put_rdbuf content).current_dir = w.current_dir ∧
    (w.put_rdbuf content).input = w.input ∧ (w.put_rdbuf content).cin = w.cin ∧
    (w.put_rdbuf content).cerr = w.cerr ∧ (w.put_rdbuf content).invoked = w.invoked ∧
    (w.put_rdbuf content).calls = w.calls := by
  unfold World.put_rdbuf
  by_cases h : w.cout_fail = true
  · simp [h]
  · simp only [h, if_false]
    cases content with
    | none => simp
    | some c => by_cases hc : c = "" <;> simp [hc]

theorem put_rdbuf_input {σ : Type} (w : World σ) (c : Option String) :
    (w.put_rdbuf c).input = w.input :=
  (put_rdbuf_frame w c).2.2.1

theorem put_rdbuf_cin {σ : Type} (w : World σ) (c : Option String) :
    (w.put_rdbuf c).cin = w.cin :=
  (put_rdbuf_frame w c).2.2.2.1

theorem put_rdbuf_invoked {σ : Type} (w : World σ) (c : Option String) :
    (w.put_rdbuf c).invoked = w.invoked :=
  (put_rdbuf_frame w c).2.2.2.2.2.1

theorem first_char_dot (s : String) : (first_char s = '.') ↔ starts_with_dot s = true := by
  unfold first_char starts_with_dot
  cases s.data <;> simp

theorem list_entry_eq {σ : Type} (args : List String) (w : World σ) (entry : DirEntry) :
    list_entry (decide ("-a" ∈ args)) w entry =
      if (decide ("-a" ∈ args) || !starts_with_dot entry.filename) = true
      then w.put (listing_line entry) else w := by
  unfold list_entry listing_line
  by_cases ha : "-a" ∈ args
  · simp [ha]
  · by_cases hd : starts_with_dot entry.filename = true
    · simp [ha, hd, (first_char_dot entry.filename).2 hd]
    · have hf : ¬ first_char entry.filename = '.' := fun h => hd ((first_char_dot _).1 h)
      simp [ha, hd, hf]

theorem foldl_list_entry {σ : Type} (args : List String) (entries : List DirEntry) :
    ∀ w : World σ, entries.foldl (list_entry (decide ("-a" ∈ args))) w =
      w.put (concat ((shown args entries).map listing_line)) := by
  induction entries with
  | nil => intro w; simp [shown, concat, put_empty]
  | cons e es ih =>
    intro w
    rw [List.foldl_cons, ih, list_entry_eq]
    by_cases hs : (decide ("-a" ∈ args) || !starts_with_dot e.filename) = true
    · rw [if_pos hs, put_put]
      have : shown args (e :: es) = e :: shown args es := by
        simp only [shown]
        exact List.filter_cons_of_pos hs
      rw [this]
      simp [concat]
    · rw [if_neg hs]
      have : shown args (e :: es) = shown args es := by
        simp only [shown]
        exact List.filter_cons_of_neg hs
      rw [this]

theorem echo_to_console_eq {σ : Type} (args : List String) :
    ∀ w : World σ, echo_to_console args w = w.put (spaced args) := by
  induction args with
  | nil => intro w; simp [echo_to_console, spaced, concat, put_empty]
  | cons a rest ih =>
    intro w
    simp only [echo_to_console]
    rw [ih, put_put, put_put]
    simp [spaced, concat, String.append_assoc]

theorem echo_to_file_frame {σ : Type} (os : OS σ) (file : String) (tokens : List String) :
    ∀ w : World σ,
      (echo_to_file os file tokens w).cin = w.cin ∧
      (echo_to_file os file tokens w).input = w.input ∧
      (echo_to_file os file tokens w).invoked = w.invoked ∧
      (echo_to_file os file tokens w).current_dir = w.current_dir ∧
      (echo_to_file os file tokens w).cout = w.cout ∧
      (echo_to_file os file tokens w).cerr = w.cerr := by
  induction tokens with
  | nil => intro w; simp [echo_to_file]
  | cons t rest ih =>
    intro w
    simp only [echo_to_file]
    obtain ⟨h1, h2, h3, h4, h5, h6⟩ := ih ((w.call (.ofstream_write file t)
      (os.ofstream_write w.fs file t)).call (.ofstream_write file " ")
      (os.ofstream_write (w.call (.ofstream_write file t)
        (os.ofstream_write w.fs file t)).fs file " "))
    exact ⟨h1, h2, h3, h4, h5, h6⟩

theorem remove_loop_frame {σ : Type} (os : OS σ) (recursive : Bool) (paths : List String) :
    ∀ w : World σ,
      (remove_loop os recursive paths w).world.cin = w.cin ∧
      (remove_loop os recursive paths w).world.input = w.input ∧
      (remove_loop os recursive paths w).world.invoked = w.invoked ∧
      (remove_loop os recursive paths w).world.current_dir = w.current_dir ∧
      (remove_loop os recursive paths w).world.cout = w.cout ∧
      (remove_loop os recursive paths w).world.cerr = w.cerr := by
  induction paths with
  | nil => intro w; simp [remove_loop, Outcome.world]
  | cons p rest ih =>
    intro w
    unfold remove_loop
    split
    · exact ih w
    · split
      · split
        · simp [Outcome.world, World.call]
        · exact ih _
      · split
        · simp [Outcome.world, World.call]
        · exact ih _

/-! ## What no handler touches -/

theorem handlers_frame (σ : Type) : ∀ p ∈ commands σ, ∀ (os : OS σ) (w : World σ)
    (args : List String),
      (p.2 os w args).world.cin = w.cin ∧ (p.2 os w args).world.input = w.input ∧
      (p.2 os w args).world.invoked = w.invoked := by
  intro p hp os w args
  simp only [commands, List.mem_cons, List.mem_singleton, List.not_mem_nil, or_false] at hp
  rcases hp with h | h | h | h | h | h | h | h | h | h | h | h <;> subst h <;> simp only []
  · unfold list_directory
    split
    · simp [Outcome.world, World.call]
    · simp [foldl_list_entry, Outcome.world, World.call, put_cin, put_input, put_invoked, put_rdbuf_cin, put_rdbuf_input, put_rdbuf_invoked]
  · unfold change_directory
    cases args with
    | nil => simp [Outcome.world]
    | cons p rest =>
      cases h1 : (os.set_current_path w.fs p).2 <;>
      cases h2 : os.current_path (os.set_current_path w.fs p).1 <;>
      simp [h1, h2, Outcome.world, World.call, World.err]
  · unfold print_working_directory
    split <;> simp [Outcome.world, World.call, put_cin, put_input, put_invoked, put_rdbuf_cin, put_rdbuf_input, put_rdbuf_invoked]
  · unfold make_directory
    repeat' split
    all_goals simp [Outcome.world, World.call]
  · cases args with
    | nil => simp [remove_target, Outcome.world]
    | cons a rest =>
      have := remove_loop_frame os (decide ("-r" ∈ a :: rest)) (a :: rest) w
      exact ⟨this.1, this.2.1, this.2.2.1⟩
  · unfold copy_file
    repeat' split
    all_goals simp [Outcome.world, World.call]
  · unfold move_file
    repeat' split
    all_goals simp [Outcome.world, World.call]
  · unfold create_file
    split <;> simp [Outcome.world, World.call]
  · unfold display_file
    split <;> simp [Outcome.world, World.call, put_cin, put_input, put_invoked, put_rdbuf_cin, put_rdbuf_input, put_rdbuf_invoked]
  · cases args with
    | nil => simp [echo_content, Outcome.world]
    | cons a rest =>
      unfold echo_content
      simp only []
      split
      · split
        · simp only [Outcome.world]
          exact ⟨(echo_to_file_frame os _ _ _).1, (echo_to_file_frame os _ _ _).2.1,
            (echo_to_file_frame os _ _ _).2.2.1⟩
        · simp [Outcome.world, World.call]
      · simp [echo_to_console_eq, Outcome.world, put_cin, put_input, put_invoked]
  · simp [clear_screen, Outcome.world, World.call]
  · simp [show_help, Outcome.world, put_cin, put_input, put_invoked]

theorem handler_frame {σ : Type} (name : String) (handler : Handler σ)
    (hf : find_command σ name = some handler) (os : OS σ) (w : World σ) (args : List String) :
    (handler os w args).world.cin = w.cin ∧ (handler os w args).world.input = w.input ∧
      (handler os w args).world.invoked = w.invoked :=
  handlers_frame σ (name, handler) (find_command_mem σ name handler hf) os w args

theorem dispatch_frame {σ : Type} (os : OS σ) (w : World σ) (name : String)
    (cmd_args : List String) :
    (dispatch os w name cmd_args).cin = w.cin ∧ (dispatch os w name cmd_args).input = w.input := by
  unfold dispatch
  cases hf : find_command σ name with
  | none => simp [World.err]
  | some handler =>
    have := handler_frame name handler hf os (w.invoke name cmd_args) cmd_args
    simp only []
    cases ho : handler os (w.invoke name cmd_args) cmd_args with
    | returned w1 =>
      rw [ho] at this
      simpa [Outcome.world, recover, World.invoke] using ⟨this.1, this.2.1⟩
    | thrown what w1 =>
      rw [ho] at this
      simpa [Outcome.world, recover, World.err, World.invoke] using ⟨this.1, this.2.1⟩

theorem dispatch_invoked {σ : Type} (os : OS σ) (w : World σ) (name : String)
    (cmd_args : List String) (h : name ∈ registered) :
    (dispatch os w name cmd_args).invoked = w.invoked ++ [(name, cmd_args)] := by
  unfold dispatch
  cases hf : find_command σ name with
  | none =>
    exfalso
    simp only [registered, List.mem_cons, List.mem_singleton, List.not_mem_nil, or_false] at h
    rcases h with h | h | h | h | h | h | h | h | h | h | h | h <;> subst h <;>
      simp [find_command, commands, List.lookup] at hf
  | some handler =>
    have := handler_frame name handler hf os (w.invoke name cmd_args) cmd_args
    simp only []
    cases ho : handler os (w.invoke name cmd_args) cmd_args with
    | returned w1 =>
      rw [ho] at this
      simpa [Outcome.world, recover, World.invoke] using this.2.2
    | thrown what w1 =>
      rw [ho] at this
      simpa [Outcome.world, recover, World.err, World.invoke] using this.2.2

/-! ## End of input -/

theorem getline_at_end (s : IStream) (str : String) (hbuf : s.buf = [])
    (h : s.good = true ∨ str ≠ "exit") :
    (getline s str).1.buf = [] ∧ (getline s str).1.good = false ∧ (getline s str).2 ≠ "exit" := by
  unfold getline
  by_cases hg : s.good = true
  · rw [if_pos hg, hbuf]
    have he : (String.mk [] : String) ≠ "exit" := by decide
    exact ⟨rfl, rfl, he⟩
  · have hstr : str ≠ "exit" := by
      rcases h with h | h
      · exact absurd h hg
      · exact h
    rw [if_neg hg]
    exact ⟨hbuf, by simp [IStream.good], hstr⟩

theorem iteration_at_end {σ : Type} (os : OS σ) (w : World σ) (hbuf : w.cin.buf = [])
    (h : w.cin.good = true ∨ w.input ≠ "exit") :
    (iteration os w).1 = .running ∧ (iteration os w).2.cin.buf = [] ∧
      (iteration os w).2.input ≠ "exit" := by
  obtain ⟨h1, _, h3⟩ := getline_at_end w.cin w.input hbuf h
  refine ⟨iteration_running os w h3, ?_⟩
  have hcin := (read_prompt_frame w).2.2.2.2.2.1
  have hin := (read_prompt_frame w).2.2.2.2.2.2
  cases ht : tokenize (getline w.cin w.input).2 with
  | nil =>
    rw [iteration_empty os w h3 ht]
    simp only [hcin, hin]
    exact ⟨h1, h3⟩
  | cons name cmd_args =>
    rw [iteration_dispatch os w name cmd_args h3 ht]
    obtain ⟨hc, hi⟩ := dispatch_frame os (read_input (prompt w)) name cmd_args
    simp only [hc, hi, hcin, hin]
    exact ⟨h1, h3⟩

theorem run_loop_at_end {σ : Type} (os : OS σ) (n : Nat) : ∀ w : World σ, w.cin.buf = [] →
    (w.cin.good = true ∨ w.input ≠ "exit") → (run_loop os n w).1 = .running := by
  induction n with
  | zero => intro w _ _; rfl
  | succ n ih =>
    intro w hbuf h
    obtain ⟨h1, h2, h3⟩ := iteration_at_end os w hbuf h
    unfold run_loop
    cases hit : iteration os w with
    | mk st w1 =>
      rw [hit] at h1 h2 h3
      simp only at h1 h2 h3
      subst h1
      exact ih w1 h2 (Or.inr h3)

theorem main_at_end {σ : Type} (os : OS σ) (n : Nat) (fs : σ) :
    main os n fs [] ≠ some (.ok 0) := by
  unfold main
  cases hc : Terminal os fs [] with
  | error e => simp
  | ok term =>
    have hb : term.cin.buf = [] ∧ term.cin.good = true := by
      unfold Terminal at hc
      cases h : os.current_path fs with
      | error e => simp [h] at hc
      | ok d =>
        simp only [h, Except.ok.injEq] at hc
        subst hc
        exact ⟨rfl, rfl⟩
    have hr := run_loop_at_end os n term hb.1 (Or.inl hb.2)
    simp only []
    cases hrun : run_loop os n term with
    | mk st w1 =>
      rw [hrun] at hr
      simp only at hr
      subst hr
      simp

/-! ## White space around a token -/

theorem runs_of_spaces (cs : List Char) (h : ∀ c ∈ cs, isspace c = true) :
    (cs.splitOnP isspace).filter (fun run => run ≠ []) = [] := by
  induction cs with
  | nil => simp [List.splitOnP_nil]
  | cons c cs ih =>
    rw [runs_cons_sep c cs (h c (List.mem_cons_self _ _))]
    exact ih (fun x hx => h x (List.mem_cons_of_mem _ hx))

theorem runs_after_spaces (pre cs : List Char) (h : ∀ c ∈ pre, isspace c = true) :
    ((pre ++ cs).splitOnP isspace).filter (fun run => run ≠ []) =
      (cs.splitOnP isspace).filter (fun run => run ≠ []) := by
  induction pre with
  | nil => rfl
  | cons c pre ih =>
    rw [List.cons_append, runs_cons_sep c _ (h c (List.mem_cons_self _ _))]
    exact ih (fun x hx => h x (List.mem_cons_of_mem _ hx))

theorem tokenize_padded_exit (line : String) (pre post : List Char)
    (hline : line.data = pre ++ "exit".data ++ post)
    (hpre : ∀ c ∈ pre, isspace c = true) (hpost : ∀ c ∈ post, isspace c = true) :
    tokenize line = ["exit"] := by
  rw [tokenize_eq_maximal_runs]
  unfold maximal_runs
  rw [hline, List.append_assoc, runs_after_spaces pre _ hpre]
  have he : "exit".data = ['e', 'x', 'i', 't'] := rfl
  rw [he]
  simp only [List.cons_append, List.nil_append]
  rw [runs_token isspace 'e' _ (by decide)]
  have h1 : List.takeWhile (fun x => !isspace x) ('e' :: 'x' :: 'i' :: 't' :: post) =
      ['e', 'x', 'i', 't'] := by
    have e : isspace 'e' = false := by decide
    have x : isspace 'x' = false := by decide
    have i : isspace 'i' = false := by decide
    have t : isspace 't' = false := by decide
    simp only [List.takeWhile, e, x, i, t, Bool.not_false]
    cases post with
    | nil => rfl
    | cons c cs => simp [List.takeWhile, hpost c (List.mem_cons_self _ _)]
  have h2 : List.dropWhile (fun x => !isspace x) ('e' :: 'x' :: 'i' :: 't' :: post) = post := by
    have e : isspace 'e' = false := by decide
    have x : isspace 'x' = false := by decide
    have i : isspace 'i' = false := by decide
    have t : isspace 't' = false := by decide
    simp only [List.dropWhile, e, x, i, t, Bool.not_false]
    cases post with
    | nil => rfl
    | cons c cs => simp [List.dropWhile, hpost c (List.mem_cons_self _ _)]
  rw [h1, h2, runs_of_spaces post hpost]
  rfl

/-! ## `rm` -/

/-- C1, as stated, fails on the input line `exit`: its first token `exit` is not one of
the twelve registered names, yet the loop ends and nothing is written to the error
stream. -/
theorem exit_line_is_not_reported :
    (getline (sample "exit\n").cin (sample "exit\n").input).2 = "exit" ∧
    tokenize "exit" = ["exit"] ∧ "exit" ∉ registered ∧
    (iteration disk (sample "exit\n")).1 = .terminated ∧
    (iteration disk (sample "exit\n")).2.cerr = "" := by
  decide

/-- C1 (amended): for every state and every input line other than the exact line `exit`
whose first token `t` is not a registered name, the pass through the loop writes exactly
`Command not found: t` and a newline to the error stream, invokes no handler, issues no
operating-system call, leaves the filesystem and `current_dir` unchanged, and the loop
keeps running. -/
theorem unregistered_command_is_reported {σ : Type} (os : OS σ) (w : World σ)
    (line t : String) (rest : List String)
    (hline : (getline w.cin w.input).2 = line)
    (hexit : line ≠ "exit")
    (htok : tokenize line = t :: rest)
    (hreg : t ∉ registered) :
    (iteration os w).1 = .running ∧
    (iteration os w).2.cerr = w.cerr ++ ("Command not found: " ++ t ++ "\n") ∧
    (iteration os w).2.invoked = w.invoked ∧
    (iteration os w).2.calls = w.calls ∧
    (iteration os w).2.fs = w.fs ∧
    (iteration os w).2.current_dir = w.current_dir := by
  subst hline
  obtain ⟨hfs, hcd, hcerr, hinv, hcalls, _, _⟩ := read_prompt_frame w
  rw [iteration_dispatch os w t rest hexit htok, dispatch_unregistered os _ t rest hreg]
  refine ⟨rfl, ?_, hinv, hcalls, hfs, hcd⟩
  show (read_input (prompt w)).cerr ++ _ = _
  rw [hcerr]

/-- An instance of the theorem for C1: the line `foo bar`. -/
theorem unregistered_command_is_reported_witness :
    (getline (sample "foo bar\n").cin (sample "foo bar\n").input).2 = "foo bar" ∧
    "foo bar" ≠ "exit" ∧ tokenize "foo bar" = ["foo", "bar"] ∧ "foo" ∉ registered ∧
    ((iteration disk (sample "foo bar\n")).1 = .running ∧
    (iteration disk (sample "foo bar\n")).2.cerr =
      (sample "foo bar\n").cerr ++ ("Command not found: " ++ "foo" ++ "\n") ∧
    (iteration disk (sample "foo bar\n")).2.invoked = (sample "foo bar\n").invoked ∧
    (iteration disk (sample "foo bar\n")).2.calls = (sample "foo bar\n").calls ∧
    (iteration disk (sample "foo bar\n")).2.fs = (sample "foo bar\n").fs ∧
    (iteration disk (sample "foo bar\n")).2.current_dir = (sample "foo bar\n").current_dir) :=
  ⟨by decide, by decide, by decide, by decide,
    unregistered_command_is_reported disk (sample "foo bar\n") "foo bar" "foo" ["bar"]
      (by decide) (by decide) (by decide) (by decide)⟩

/-- C4: for every state and every input line whose first token is a registered name, if
the handler called on the remaining tokens throws with message `what`, the loop catches
it, appends `Error: what` and a newline to the error stream of the state the handler
left, and keeps running. -/
theorem handler_fault_is_recovered {σ : Type} (os : OS σ) (w : World σ) (line name : String)
    (cmd_args : List String) (handler : Handler σ) (what : String) (w1 : World σ)
    (hline : (getline w.cin w.input).2 = line)
    (htok : tokenize line = name :: cmd_args)
    (hfind : find_command σ name = some handler)
    (hthrow : handler os ((read_input (prompt w)).invoke name cmd_args) cmd_args =
      .thrown what w1) :
    iteration os w = (.running, w1.err ("Error: " ++ what ++ "\n")) ∧
    (iteration os w).2.cerr = w1.cerr ++ ("Error: " ++ what ++ "\n") := by
  subst hline
  have hexit : (getline w.cin w.input).2 ≠ "exit" := by
    intro he
    rw [he, tokenize_exit] at htok
    have hn : name = "exit" := by injection htok with h1 _; exact h1.symm
    subst hn
    exact exit_unregistered (find_command_registered σ _ handler hfind)
  have hd : dispatch os (read_input (prompt w)) name cmd_args =
      w1.err ("Error: " ++ what ++ "\n") := by
    unfold dispatch
    rw [hfind]
    simp only []
    rw [hthrow]
    rfl
  rw [iteration_dispatch os w name cmd_args hexit htok, hd]
  exact ⟨rfl, rfl⟩

/-- An instance of the theorem for C4: `rm src` on a non-empty directory. -/
theorem handler_fault_is_recovered_witness :
    (getline (sample "rm src\n").cin (sample "rm src\n").input).2 = "rm src" ∧
    tokenize "rm src" = ["rm", "src"] ∧
    find_command Disk "rm" = some remove_target ∧
    remove_target disk ((read_input (prompt (sample "rm src\n"))).invoke "rm" ["src"]) ["src"] =
      .thrown "filesystem error: cannot remove: Directory not empty"
        (((read_input (prompt (sample "rm src\n"))).invoke "rm" ["src"]).call (.remove "src")
          sample_disk) ∧
    (iteration disk (sample "rm src\n") =
      (.running, (((read_input (prompt (sample "rm src\n"))).invoke "rm" ["src"]).call
          (.remove "src") sample_disk).err
        ("Error: " ++ "filesystem error: cannot remove: Directory not empty" ++ "\n")) ∧
    (iteration disk (sample "rm src\n")).2.cerr =
      (((read_input (prompt (sample "rm src\n"))).invoke "rm" ["src"]).call (.remove "src")
          sample_disk).cerr ++
        ("Error: " ++ "filesystem error: cannot remove: Directory not empty" ++ "\n")) :=
  ⟨by decide, by decide, rfl, by decide,
    handler_fault_is_recovered disk (sample "rm src\n") "rm src" "rm" ["src"] remove_target
      "filesystem error: cannot remove: Directory not empty" _ (by decide) (by decide) rfl
      (by decide)⟩

/-- C5 fails on the code: once the console input is exhausted (the stream is at its end,
and the loop has not just read `exit`), no number of passes ends the loop, so `run`
never returns; in particular a process started on empty input never exits with
status 0. -/
theorem run_never_returns_at_end_of_input {σ : Type} (os : OS σ) (w : World σ) (n : Nat)
    (hbuf : w.cin.buf = []) (hinput : w.cin.good = true ∨ w.input ≠ "exit") :
    (run_loop os n w).1 = .running ∧ main os n w.fs [] ≠ some (.ok 0) :=
  ⟨run_loop_at_end os n w hbuf hinput, main_at_end os n w.fs⟩

/-- An instance of the theorem for C5: the sample terminal on empty console input. -/
theorem run_never_returns_at_end_of_input_witness :
    (sample "").cin.buf = [] ∧
    ((sample "").cin.good = true ∨ (sample "").input ≠ "exit") ∧
    ((run_loop disk 1000 (sample "")).1 = .running ∧
      main disk 1000 (sample "").fs [] ≠ some (.ok 0)) :=
  ⟨rfl, Or.inl rfl, run_never_returns_at_end_of_input disk (sample "") 1000 rfl (Or.inl rfl)⟩

/-- C6: for every state and every input line the read delivers without failing, the loop
ends after that line exactly when the line is `exit`; the line `exit` ends it with no
handler invoked, no operating-system call and the filesystem untouched; any other line
leaves it running, and `exit` surrounded by whitespace is the single token `exit`,
reported as a command that is not found. -/
theorem loop_terminates_iff_exit {σ : Type} (os : OS σ) (w : World σ) (line : String)
    (hline : (getline w.cin w.input).2 = line)
    (_hread : (getline w.cin w.input).1.failbit = false) :
    ((iteration os w).1 = .terminated ↔ line = "exit") ∧
    (line = "exit" → (iteration os w).2.invoked = w.invoked ∧
      (iteration os w).2.calls = w.calls ∧ (iteration os w).2.fs = w.fs ∧
      (iteration os w).2.cerr = w.cerr) ∧
    (line ≠ "exit" → (iteration os w).1 = .running) ∧
    (∀ pre post : List Char, line.data = pre ++ "exit".data ++ post →
      (∀ c ∈ pre, isspace c = true) → (∀ c ∈ post, isspace c = true) → line ≠ "exit" →
      tokenize line = ["exit"] ∧
      (iteration os w).2.cerr = w.cerr ++ ("Command not found: " ++ "exit" ++ "\n") ∧
      (iteration os w).2.invoked = w.invoked ∧ (iteration os w).2.calls = w.calls) := by
  subst hline
  refine ⟨⟨?_, ?_⟩, ?_, ?_, ?_⟩
  · intro ht
    by_contra hne
    rw [iteration_running os w hne] at ht
    cases ht
  · intro he
    rw [iteration_exit os w he]
  · intro he
    obtain ⟨hfs, _, hcerr, hinv, hcalls, _, _⟩ := read_prompt_frame w
    rw [iteration_exit os w he]
    exact ⟨hinv, hcalls, hfs, hcerr⟩
  · exact iteration_running os w
  · intro pre post hdata hpre hpost hne
    obtain ⟨_, _, hcerr, hinv, hcalls, _, _⟩ := read_prompt_frame w
    have ht := tokenize_padded_exit _ pre post hdata hpre hpost
    refine ⟨ht, ?_⟩
    rw [iteration_dispatch os w "exit" [] hne ht,
      dispatch_unregistered os _ "exit" [] exit_unregistered]
    refine ⟨?_, hinv, hcalls⟩
    show (read_input (prompt w)).cerr ++ _ = _
    rw [hcerr]

/-- An instance of the theorem for C6: the line `exit` between two spaces. -/
theorem loop_terminates_iff_exit_witness :
    (getline (sample " exit \n").cin (sample " exit \n").input).2 = " exit " ∧
    (getline (sample " exit \n").cin (sample " exit \n").input).1.failbit = false ∧
    (((iteration disk (sample " exit \n")).1 = .terminated ↔ " exit " = "exit") ∧
    (" exit " = "exit" → (iteration disk (sample " exit \n")).2.invoked = (sample " exit \n").invoked ∧
      (iteration disk (sample " exit \n")).2.calls = (sample " exit \n").calls ∧
      (iteration disk (sample " exit \n")).2.fs = (sample " exit \n").fs ∧
      (iteration disk (sample " exit \n")).2.cerr = (sample " exit \n").cerr) ∧
    (" exit " ≠ "exit" → (iteration disk (sample " exit \n")).1 = .running) ∧
    (∀ pre post : List Char, " exit ".data = pre ++ "exit".data ++ post →
      (∀ c ∈ pre, isspace c = true) → (∀ c ∈ post, isspace c = true) → " exit " ≠ "exit" →
      tokenize " exit " = ["exit"] ∧
      (iteration disk (sample " exit \n")).2.cerr =
        (sample " exit \n").cerr ++ ("Command not found: " ++ "exit" ++ "\n") ∧
      (iteration disk (sample " exit \n")).2.invoked = (sample " exit \n").invoked ∧
      (iteration disk (sample " exit \n")).2.calls = (sample " exit \n").calls)) :=
  ⟨by decide, by decide,
    loop_terminates_iff_exit disk (sample " exit \n") " exit " (by decide) (by decide)⟩

/-- C7: for every input line other than `exit`, the argument list the loop builds is the
sequence of maximal runs of non-whitespace characters of the line, in order, so no token
is empty or contains whitespace; when the list is empty nothing is dispatched and
nothing reaches the error stream; and when the first token is a registered name, the
state after the pass is the one its handler leaves when called on exactly the remaining
tokens, that call being the only one added to the log of invoked handlers. -/
theorem argument_list_and_dispatch {σ : Type} (os : OS σ) (w : World σ) (line : String)
    (hline : (getline w.cin w.input).2 = line) (hexit : line ≠ "exit") :
    tokenize line = maximal_runs line ∧
    (∀ t ∈ tokenize line, t.data ≠ [] ∧ ∀ c ∈ t.data, isspace c = false) ∧
    (tokenize line = [] → (iteration os w).1 = .running ∧
      (iteration os w).2.invoked = w.invoked ∧ (iteration os w).2.calls = w.calls ∧
      (iteration os w).2.cerr = w.cerr ∧ (iteration os w).2.fs = w.fs) ∧
    (∀ (name : String) (cmd_args : List String) (handler : Handler σ),
      tokenize line = name :: cmd_args → find_command σ name = some handler →
      iteration os w =
        (.running, recover (handler os ((read_input (prompt w)).invoke name cmd_args) cmd_args)) ∧
      (iteration os w).2.invoked = w.invoked ++ [(name, cmd_args)]) := by
  subst hline
  refine ⟨tokenize_eq_maximal_runs _, tokenize_loop_tokens _ _, ?_, ?_⟩
  · intro ht
    obtain ⟨hfs, _, hcerr, hinv, hcalls, _, _⟩ := read_prompt_frame w
    rw [iteration_empty os w hexit ht]
    exact ⟨rfl, hinv, hcalls, hcerr, hfs⟩
  · intro name cmd_args handler ht hfind
    rw [iteration_dispatch os w name cmd_args hexit ht]
    refine ⟨?_, ?_⟩
    · unfold dispatch
      rw [hfind]
    · rw [dispatch_invoked os _ name cmd_args (find_command_registered σ name handler hfind),
        (read_prompt_frame w).2.2.2.1]

/-- An instance of the theorem for C7: a line with runs of spaces and a tab. -/
theorem argument_list_and_dispatch_witness :
    (getline (sample "  echo  a\tb \n").cin (sample "  echo  a\tb \n").input).2 = "  echo  a\tb " ∧
    "  echo  a\tb " ≠ "exit" ∧
    (tokenize "  echo  a\tb " = maximal_runs "  echo  a\tb " ∧
    (∀ t ∈ tokenize "  echo  a\tb ", t.data ≠ [] ∧ ∀ c ∈ t.data, isspace c = false) ∧
    (tokenize "  echo  a\tb " = [] → (iteration disk (sample "  echo  a\tb \n")).1 = .running ∧
      (iteration disk (sample "  echo  a\tb \n")).2.invoked = (sample "  echo  a\tb \n").invoked ∧
      (iteration disk (sample "  echo  a\tb \n")).2.calls = (sample "  echo  a\tb \n").calls ∧
      (iteration disk (sample "  echo  a\tb \n")).2.cerr = (sample "  echo  a\tb \n").cerr ∧
      (iteration disk (sample "  echo  a\tb \n")).2.fs = (sample "  echo  a\tb \n").fs) ∧
    (∀ (name : String) (cmd_args : List String) (handler : Handler Disk),
      tokenize "  echo  a\tb " = name :: cmd_args → find_command Disk name = some handler →
      iteration disk (sample "  echo  a\tb \n") =
        (.running, recover (handler disk
          ((read_input (prompt (sample "  echo  a\tb \n"))).invoke name cmd_args) cmd_args)) ∧
      (iteration disk (sample "  echo  a\tb \n")).2.invoked =
        (sample "  echo  a\tb \n").invoked ++ [(name, cmd_args)])) :=
  ⟨by decide, by decide,
    argument_list_and_dispatch disk (sample "  echo  a\tb \n") "  echo  a\tb " (by decide)
      (by decide)⟩

/-! ## The claims about the handlers -/

/-- C2: for every state and every non-empty argument list whose first argument is a path
on which changing the working directory of the process throws, `change_directory`
returns normally (nothing reaches the `catch` of the loop), leaves `current_dir` as it
was and appends `Error: Invalid directory` to the error stream. -/
theorem failed_cd_keeps_current_dir {σ : Type} (os : OS σ) (w : World σ) (p : String)
    (rest : List String) (what : String)
    (hfail : (os.set_current_path w.fs p).2 = some what) :
    change_directory os w (p :: rest) =
      .returned ((w.call (.set_current_path p) (os.set_current_path w.fs p).1).err
        "Error: Invalid directory\n") ∧
    (change_directory os w (p :: rest)).world.current_dir = w.current_dir ∧
    (change_directory os w (p :: rest)).world.cerr = w.cerr ++ "Error: Invalid directory\n" ∧
    (dispatch os w "cd" (p :: rest)).current_dir = w.current_dir ∧
    (dispatch os w "cd" (p :: rest)).cerr = w.cerr ++ "Error: Invalid directory\n" := by
  have h : change_directory os w (p :: rest) =
      .returned ((w.call (.set_current_path p) (os.set_current_path w.fs p).1).err
        "Error: Invalid directory\n") := by
    simp only [change_directory, hfail]
  have hd : dispatch os w "cd" (p :: rest) =
      recover (change_directory os (w.invoke "cd" (p :: rest)) (p :: rest)) := rfl
  have h2 : change_directory os (w.invoke "cd" (p :: rest)) (p :: rest) =
      .returned (((w.invoke "cd" (p :: rest)).call (.set_current_path p)
        (os.set_current_path w.fs p).1).err "Error: Invalid directory\n") := by
    have hfail2 : (os.set_current_path (w.invoke "cd" (p :: rest)).fs p).2 = some what := hfail
    simp only [change_directory, hfail2]
    rfl
  rw [hd, h2, h]
  exact ⟨rfl, rfl, rfl, rfl, rfl⟩

/-- An instance of the theorem for C2: `cd /nowhere`. -/
theorem failed_cd_keeps_current_dir_witness :
    (disk.set_current_path (sample "").fs "/nowhere").2 =
      some "filesystem error: cannot set current path: No such file or directory" ∧
    (change_directory disk (sample "") ["/nowhere"] =
      .returned (((sample "").call (.set_current_path "/nowhere")
        (disk.set_current_path (sample "").fs "/nowhere").1).err "Error: Invalid directory\n") ∧
    (change_directory disk (sample "") ["/nowhere"]).world.current_dir = (sample "").current_dir ∧
    (change_directory disk (sample "") ["/nowhere"]).world.cerr =
      (sample "").cerr ++ "Error: Invalid directory\n" ∧
    (dispatch disk (sample "") "cd" ["/nowhere"]).current_dir = (sample "").current_dir ∧
    (dispatch disk (sample "") "cd" ["/nowhere"]).cerr =
      (sample "").cerr ++ "Error: Invalid directory\n") :=
  ⟨by decide, failed_cd_keeps_current_dir disk (sample "") "/nowhere" []
    "filesystem error: cannot set current path: No such file or directory" (by decide)⟩

/-- C10 fails on the code once `std::cout` has failed: `cat nofile` inserts nothing at
line 145 and so sets `failbit`, which nothing clears; on the next line the directory is
still listed entry by entry (three entries), but `ls` prints nothing. -/
theorem ls_prints_nothing_after_failed_cat :
    (iteration disk (sample "cat nofile\nls\n")).2.cout_fail = true ∧
    disk.directory_iterator (iteration disk (sample "cat nofile\nls\n")).2.fs
      (iteration disk (sample "cat nofile\nls\n")).2.current_dir =
        .ok [⟨".profile", false⟩, ⟨"notes.txt", false⟩, ⟨"src", true⟩] ∧
    (list_directory disk (iteration disk (sample "cat nofile\nls\n")).2 []).world.cout =
      (iteration disk (sample "cat nofile\nls\n")).2.cout ∧
    (iteration disk (iteration disk (sample "cat nofile\nls\n")).2).2.cout =
      (iteration disk (sample "cat nofile\nls\n")).2.cout := by
  refine ⟨by decide, rfl, by decide, by decide⟩

/-- While `std::cout` has not failed, `ls` does what C10 says: for every listing of the
entries of `current_dir` and every argument list, `list_directory` prints one line per
shown entry, in iteration order, made of `[DIR] ` for a directory and `[FILE] `
otherwise, then the file name and a newline; with `-a` anywhere among the arguments
every entry is shown, and without it exactly the entries whose name starts with `.` are
left out. -/
theorem ls_prints_entries {σ : Type} (os : OS σ) (w : World σ) (args : List String)
    (entries : List DirEntry)
    (hdir : os.directory_iterator w.fs w.current_dir = .ok entries)
    (hgood : w.cout_fail = false) :
    list_directory os w args =
      .returned ((w.call (.directory_iterator w.current_dir) w.fs).put
        (concat ((shown args entries).map listing_line))) ∧
    (list_directory os w args).world.cout =
      w.cout ++ concat ((shown args entries).map listing_line) ∧
    ("-a" ∈ args → shown args entries = entries) ∧
    ("-a" ∉ args →
      shown args entries = entries.filter (fun e => !starts_with_dot e.filename)) ∧
    (∀ e, listing_line e =
      (if e.is_directory = true then "[DIR] " else "[FILE] ") ++ e.filename ++ "\n") := by
  have h : list_directory os w args =
      .returned ((w.call (.directory_iterator w.current_dir) w.fs).put
        (concat ((shown args entries).map listing_line))) := by
    simp only [list_directory, hdir, foldl_list_entry]
  rw [h]
  refine ⟨rfl, ?_, ?_, ?_, fun e => rfl⟩
  · have hg : (w.call (.directory_iterator w.current_dir) w.fs).cout_fail = false := hgood
    rw [put_good _ _ hg]
    rfl
  · intro ha
    simp [shown, ha]
  · intro ha
    simp [shown, ha]

/-- An instance of the preceding theorem: `ls` in `/home` of the sample disk. -/
theorem ls_prints_entries_witness :
    disk.directory_iterator (sample "").fs (sample "").current_dir =
      .ok [⟨".profile", false⟩, ⟨"notes.txt", false⟩, ⟨"src", true⟩] ∧
    (sample "").cout_fail = false ∧
    (list_directory disk (sample "") [] =
      .returned (((sample "").call (.directory_iterator (sample "").current_dir)
        (sample "").fs).put
        (concat ((shown [] [⟨".profile", false⟩, ⟨"notes.txt", false⟩, ⟨"src", true⟩]).map
          listing_line))) ∧
    (list_directory disk (sample "") []).world.cout =
      (sample "").cout ++
        concat ((shown [] [⟨".profile", false⟩, ⟨"notes.txt", false⟩, ⟨"src", true⟩]).map
          listing_line) ∧
    ("-a" ∈ ([] : List String) →
      shown [] [⟨".profile", false⟩, ⟨"notes.txt", false⟩, ⟨"src", true⟩] =
        [⟨".profile", false⟩, ⟨"notes.txt", false⟩, ⟨"src", true⟩]) ∧
    ("-a" ∉ ([] : List String) →
      shown [] [⟨".profile", false⟩, ⟨"notes.txt", false⟩, ⟨"src", true⟩] =
        ([⟨".profile", false⟩, ⟨"notes.txt", false⟩, ⟨"src", true⟩] : List DirEntry).filter
          (fun e => !starts_with_dot e.filename)) ∧
    (∀ e, listing_line e =
      (if e.is_directory = true then "[DIR] " else "[FILE] ") ++ e.filename ++ "\n")) :=
  ⟨rfl, rfl, ls_prints_entries disk (sample "") [] _ rfl rfl⟩

end PeiShell
